import Mathlib

/-!
# ShaderTypes.h: data layout shared by the host code and the Metal shaders

The header declares one enumeration (`VertexInputIndex`) and two vertex records
(`OutlineVertex`, `FullscreenVertex`).  The development below embeds

* the enumeration as an inductive type with its enumerator value,
* each record declaration as its list of fields, laid out by the C rule
  (every field at the next offset that is a multiple of its alignment, the
  record aligned like its strictest field, the size rounded up to that alignment),
* the object representation of a record in a byte buffer, written and read
  through the computed field offsets.
-/

namespace ShaderTypes

/-! ## Buffer index enumeration -/

/-- The enumeration `VertexInputIndex` of the header, with its single enumerator. -/
inductive VertexInputIndex where
  | VertexInputIndexVertices
  deriving DecidableEq

/-- Value written next to each enumerator in the declaration
(`VertexInputIndexVertices = 0`). -/
def VertexInputIndex.toInt : VertexInputIndex → Int
  | .VertexInputIndexVertices => 0

/-- Enumerators of `VertexInputIndex`, in declaration order. -/
def VertexInputIndex.enumerators : List VertexInputIndex :=
  [.VertexInputIndexVertices]

/-- Conversion of an integer to a signed 32-bit integer (two's complement wrap-around). -/
def wrapInt32 (z : Int) : Int := (z + 2 ^ 31) % 2 ^ 32 - 2 ^ 31

/-- Value of an enumerator as a 32-bit integer, as used for the buffer binding slot. -/
def VertexInputIndex.toInt32 (v : VertexInputIndex) : Int := wrapInt32 v.toInt

/-! ## Scalars and vector types -/

/-- A byte of a buffer. -/
abbrev Byte := Fin 256

/-- A C `float` as it is stored: its IEEE-754 binary32 bit pattern. -/
structure CFloat where
  bits : Nat
  isLt : bits < 2 ^ 32
  deriving DecidableEq

/-- Size in bytes of a C `float`. -/
def CFloat.sizeOf : Nat := 4

/-- Sign bit of a binary32 pattern. -/
def CFloat.sign (f : CFloat) : Nat := f.bits / 2 ^ 31

/-- Biased exponent field (8 bits) of a binary32 pattern. -/
def CFloat.exponent (f : CFloat) : Nat := f.bits / 2 ^ 23 % 2 ^ 8

/-- Fraction field (23 bits) of a binary32 pattern. -/
def CFloat.fraction (f : CFloat) : Nat := f.bits % 2 ^ 23

/-- Whether the pattern is a NaN. -/
def CFloat.isNaN (f : CFloat) : Bool := f.exponent == 255 && f.fraction != 0

/-- Number denoted by a binary32 pattern; `none` for infinities and NaNs. -/
def CFloat.toRat? (f : CFloat) : Option ℚ :=
  if f.exponent = 255 then none
  else
    let mag : ℚ :=
      if f.exponent = 0 then (f.fraction : ℚ) / 2 ^ 149
      else if f.exponent < 150 then ((2 ^ 23 + f.fraction : Nat) : ℚ) / 2 ^ (150 - f.exponent)
      else ((2 ^ 23 + f.fraction : Nat) : ℚ) * 2 ^ (f.exponent - 150)
    some (if f.sign = 1 then -mag else mag)

/-- IEEE-754 comparison `==` on binary32 patterns: a NaN equals nothing, the two
zeros are equal, every other pair is equal exactly when the patterns agree. -/
def CFloat.ieeeEq (a b : CFloat) : Bool :=
  !a.isNaN && !b.isNaN &&
    (a.bits == b.bits || (a.bits % 2 ^ 31 == 0 && b.bits % 2 ^ 31 == 0))

/-- Modelled from the spec: `vector_float2` is declared in `<simd/simd.h>`, which is
not among the sources; the spec gives it as 2 × 32-bit IEEE-754 float. -/
structure vector_float2 where
  x : CFloat
  y : CFloat
  deriving DecidableEq

/-- Modelled from the spec: `vector_float4` is declared in `<simd/simd.h>`, which is
not among the sources; the spec gives it as 4 × 32-bit IEEE-754 float. -/
structure vector_float4 where
  x : CFloat
  y : CFloat
  z : CFloat
  w : CFloat
  deriving DecidableEq

/-- Components of a `vector_float2`, lowest address first. -/
def vector_float2.lanes (v : vector_float2) : List CFloat := [v.x, v.y]

/-- Components of a `vector_float4`, lowest address first. -/
def vector_float4.lanes (v : vector_float4) : List CFloat := [v.x, v.y, v.z, v.w]

/-- Type of a record field, as named in the header. -/
inductive FieldType where
  | vector_float2
  | vector_float4
  deriving DecidableEq

/-- Modelled from the spec: number of `float` components of a vector type of
`<simd/simd.h>` (2 for `vector_float2`, 4 for `vector_float4`). -/
def FieldType.lanes : FieldType → Nat
  | .vector_float2 => 2
  | .vector_float4 => 4

/-- Size in bytes of a vector type: its components stored contiguously. -/
def FieldType.sizeOf (t : FieldType) : Nat := t.lanes * CFloat.sizeOf

/-- Modelled from the spec: alignment of a vector type of `<simd/simd.h>`; the spec
describes the vectors as naturally aligned, so the alignment is the size. -/
def FieldType.alignOf (t : FieldType) : Nat := t.sizeOf

/-! ## Record declarations and the C layout rule -/

/-- One field of a record declaration. -/
structure Field where
  name : String
  type : FieldType
  deriving DecidableEq

/-- Smallest multiple of `a` that is at least `n`. -/
def alignUp (n a : Nat) : Nat := (n + a - 1) / a * a

/-- Fields of a declaration with their byte offsets, the first one placed at or
after `off`: each field goes to the next multiple of its alignment. -/
def layoutFrom : Nat → List Field → List (Field × Nat)
  | _, [] => []
  | off, f :: fs =>
    (f, alignUp off f.type.alignOf) ::
      layoutFrom (alignUp off f.type.alignOf + f.type.sizeOf) fs

/-- First byte offset after the last field. -/
def endOffset : Nat → List Field → Nat
  | off, [] => off
  | off, f :: fs => endOffset (alignUp off f.type.alignOf + f.type.sizeOf) fs

/-- Alignment of a record: that of its strictest field. -/
def structAlign (fs : List Field) : Nat :=
  fs.foldl (fun a f => max a f.type.alignOf) 1

/-- Size of a record (`sizeof`): the end of the last field rounded up to the
alignment of the record. -/
def structSize (fs : List Field) : Nat := alignUp (endOffset 0 fs) (structAlign fs)

/-- Byte offset of the field called `name` (`offsetof`). -/
def offsetOf (fs : List Field) (name : String) : Option Nat :=
  ((layoutFrom 0 fs).find? (fun p => p.1.name == name)).map (fun p => p.2)

/-- Sum of the sizes of the fields. -/
def fieldBytes (fs : List Field) : Nat := (fs.map (fun f => f.type.sizeOf)).sum

/-- For a byte offset `b` of a record, every (field name, component, byte of the
component) that is stored at `b`. -/
def byteOwners (fs : List Field) (b : Nat) : List (String × Nat × Nat) :=
  (layoutFrom 0 fs).foldr (fun p acc =>
    ((List.range p.1.type.lanes).foldr (fun j acc2 =>
      ((List.range CFloat.sizeOf).filter
        (fun k => p.2 + CFloat.sizeOf * j + k == b)).map (fun k => (p.1.name, j, k)) ++ acc2)
      []) ++ acc) []

/-- The record `OutlineVertex` of the header: a position in pixel space and an
RGBA color. -/
structure OutlineVertex where
  pos : vector_float4
  color : vector_float4
  deriving DecidableEq

/-- The record `FullscreenVertex` of the header. -/
structure FullscreenVertex where
  pos : vector_float2
  uv : vector_float2
  deriving DecidableEq

/-- Declaration of `OutlineVertex`: its fields in source order. -/
def OutlineVertex.fields : List Field :=
  [⟨"pos", .vector_float4⟩, ⟨"color", .vector_float4⟩]

/-- Declaration of `FullscreenVertex`: its fields in source order. -/
def FullscreenVertex.fields : List Field :=
  [⟨"pos", .vector_float2⟩, ⟨"uv", .vector_float2⟩]

/-! ## Object representation in a byte buffer -/

/-- Byte order of the host. -/
inductive ByteOrder where
  | little
  | big
  deriving DecidableEq

/-- Byte number `k` (0 the least significant) of a 32-bit pattern. -/
def CFloat.byte (f : CFloat) (k : Nat) : Byte :=
  ⟨f.bits / 256 ^ k % 256, Nat.mod_lt _ (by decide)⟩

/-- Modelled from the spec: the four bytes of a stored `float`, lowest address
first, in the byte order of the host. -/
def CFloat.toBytes (e : ByteOrder) (f : CFloat) : List Byte :=
  match e with
  | .little => [f.byte 0, f.byte 1, f.byte 2, f.byte 3]
  | .big => [f.byte 3, f.byte 2, f.byte 1, f.byte 0]

/-- The 32-bit pattern made of four bytes, `b0` the least significant. -/
def CFloat.ofLE (b0 b1 b2 b3 : Byte) : CFloat :=
  ⟨b0.val + 256 * b1.val + 65536 * b2.val + 16777216 * b3.val, by omega⟩

/-- Modelled from the spec: the `float` stored in four bytes, lowest address first,
in the byte order of the host. -/
def CFloat.ofBytes (e : ByteOrder) : List Byte → Option CFloat
  | [a, b, c, d] =>
    match e with
    | .little => some (CFloat.ofLE a b c d)
    | .big => some (CFloat.ofLE d c b a)
  | _ => none

/-- Bytes of a vector: its components one after the other. -/
def lanesToBytes (e : ByteOrder) : List CFloat → List Byte
  | [] => []
  | f :: fs => f.toBytes e ++ lanesToBytes e fs

/-- Overwrite the bytes of `buf` from offset `off` on with `bs`. -/
def writeAt (buf : List Byte) (off : Nat) (bs : List Byte) : List Byte :=
  buf.take off ++ bs ++ buf.drop (off + bs.length)

/-- The `len` bytes of `buf` from offset `off` on. -/
def readAt (buf : List Byte) (off len : Nat) : List Byte := (buf.drop off).take len

/-- Read `n` consecutive `float` components from offset `off` on. -/
def readLanes (e : ByteOrder) (buf : List Byte) : Nat → Nat → Option (List CFloat)
  | _, 0 => some []
  | off, n + 1 =>
    match CFloat.ofBytes e (readAt buf off CFloat.sizeOf), readLanes e buf (off + CFloat.sizeOf) n with
    | some f, some fs => some (f :: fs)
    | _, _ => none

/-- Write the values of the fields into `buf`, each at the offset the layout gives it. -/
def writeFields (e : ByteOrder) : List (Field × Nat) → List (List CFloat) → List Byte → List Byte
  | p :: ps, v :: vs, buf => writeFields e ps vs (writeAt buf p.2 (lanesToBytes e v))
  | _, _, buf => buf

/-- Read the values of the fields from `buf`, each from the offset the layout gives it. -/
def readFields (e : ByteOrder) (buf : List Byte) : List (Field × Nat) → Option (List (List CFloat))
  | [] => some []
  | p :: ps =>
    match readLanes e buf p.2 p.1.type.lanes, readFields e buf ps with
    | some v, some vs => some (v :: vs)
    | _, _ => none

/-- Modelled from the spec: serialization of one record to raw bytes according to
its layout (the sources contain the declarations only, no serializer): a buffer of
`structSize` bytes in which every field value is stored at the offset of its field. -/
def serializeRecord (e : ByteOrder) (fs : List Field) (vals : List (List CFloat)) : List Byte :=
  writeFields e (layoutFrom 0 fs) vals (List.replicate (structSize fs) 0)

/-- Modelled from the spec: deserialization of one record from raw bytes according
to its layout (the sources contain no deserializer): the buffer must have
`structSize` bytes, and every field value is read from the offset of its field. -/
def deserializeRecord (e : ByteOrder) (fs : List Field) (buf : List Byte) :
    Option (List (List CFloat)) :=
  if buf.length = structSize fs then readFields e buf (layoutFrom 0 fs) else none

/-- Modelled from the spec: serialization of an array, the elements stored one after
the other. -/
def serializeArray {α : Type} (ser : α → List Byte) : List α → List Byte
  | [] => []
  | v :: vs => ser v ++ serializeArray ser vs

/-- Read `n` elements of `size` bytes each from the front of `buf`. -/
def deserializeChunks {α : Type} (size : Nat) (de : List Byte → Option α) :
    Nat → List Byte → Option (List α)
  | 0, _ => some []
  | n + 1, buf =>
    match de (buf.take size), deserializeChunks size de n (buf.drop size) with
    | some v, some vs => some (v :: vs)
    | _, _ => none

/-- Modelled from the spec: deserialization of an array of elements of `size` bytes
each; the number of elements is the length of the buffer divided by `size`, and the
buffer must consist of whole elements. -/
def deserializeArray {α : Type} (size : Nat) (de : List Byte → Option α) (buf : List Byte) :
    Option (List α) :=
  if size * (buf.length / size) = buf.length then
    deserializeChunks size de (buf.length / size) buf
  else none

/-- Field values of an `OutlineVertex`, in declaration order. -/
def OutlineVertex.toRecord (v : OutlineVertex) : List (List CFloat) :=
  [v.pos.lanes, v.color.lanes]

/-- The `OutlineVertex` with the given field values. -/
def OutlineVertex.ofRecord : List (List CFloat) → Option OutlineVertex
  | [[a, b, c, d], [r, g, bl, al]] => some ⟨⟨a, b, c, d⟩, ⟨r, g, bl, al⟩⟩
  | _ => none

/-- Bytes of one `OutlineVertex`. -/
def OutlineVertex.serialize (e : ByteOrder) (v : OutlineVertex) : List Byte :=
  serializeRecord e OutlineVertex.fields v.toRecord

/-- The `OutlineVertex` stored in a buffer. -/
def OutlineVertex.deserialize (e : ByteOrder) (buf : List Byte) : Option OutlineVertex :=
  match deserializeRecord e OutlineVertex.fields buf with
  | some r => OutlineVertex.ofRecord r
  | none => none

/-- Bytes of an array of `OutlineVertex`. -/
def OutlineVertex.serializeArray (e : ByteOrder) (vs : List OutlineVertex) : List Byte :=
  ShaderTypes.serializeArray (OutlineVertex.serialize e) vs

/-- The array of `OutlineVertex` stored in a buffer. -/
def OutlineVertex.deserializeArray (e : ByteOrder) (buf : List Byte) :
    Option (List OutlineVertex) :=
  ShaderTypes.deserializeArray (structSize OutlineVertex.fields) (OutlineVertex.deserialize e) buf

/-- Field values of a `FullscreenVertex`, in declaration order. -/
def FullscreenVertex.toRecord (v : FullscreenVertex) : List (List CFloat) :=
  [v.pos.lanes, v.uv.lanes]

/-- The `FullscreenVertex` with the given field values. -/
def FullscreenVertex.ofRecord : List (List CFloat) → Option FullscreenVertex
  | [[a, b], [s, t]] => some ⟨⟨a, b⟩, ⟨s, t⟩⟩
  | _ => none

/-- Bytes of one `FullscreenVertex`. -/
def FullscreenVertex.serialize (e : ByteOrder) (v : FullscreenVertex) : List Byte :=
  serializeRecord e FullscreenVertex.fields v.toRecord

/-- The `FullscreenVertex` stored in a buffer. -/
def FullscreenVertex.deserialize (e : ByteOrder) (buf : List Byte) : Option FullscreenVertex :=
  match deserializeRecord e FullscreenVertex.fields buf with
  | some r => FullscreenVertex.ofRecord r
  | none => none

/-- Bytes of an array of `FullscreenVertex`. -/
def FullscreenVertex.serializeArray (e : ByteOrder) (vs : List FullscreenVertex) : List Byte :=
  ShaderTypes.serializeArray (FullscreenVertex.serialize e) vs

/-- The array of `FullscreenVertex` stored in a buffer. -/
def FullscreenVertex.deserializeArray (e : ByteOrder) (buf : List Byte) :
    Option (List FullscreenVertex) :=
  ShaderTypes.deserializeArray (structSize FullscreenVertex.fields)
    (FullscreenVertex.deserialize e) buf

/-- Pattern of the `float` 100. -/
def CFloat.f100 : CFloat := ⟨0x42C80000, by decide⟩

/-- Pattern of the `float` 1. -/
def CFloat.f1 : CFloat := ⟨0x3F800000, by decide⟩

/-- Pattern of the `float` 0. -/
def CFloat.f0 : CFloat := ⟨0, by decide⟩

/-- The vertex of the example: position (100, 0, 0, 1), color (1, 0, 0, 1). -/
def exampleOutlineVertex : OutlineVertex :=
  ⟨⟨CFloat.f100, CFloat.f0, CFloat.f0, CFloat.f1⟩, ⟨CFloat.f1, CFloat.f0, CFloat.f0, CFloat.f1⟩⟩

/-! ## Comparison of records under the IEEE-754 `==` -/

/-- Componentwise IEEE-754 comparison `==` of two lists of components: the lists have
the same length and every pair of components compares equal. -/
def ieeeEqLanes : List CFloat → List CFloat → Bool
  | [], [] => true
  | x :: xs, y :: ys => x.ieeeEq y && ieeeEqLanes xs ys
  | _, _ => false

/-- The 8 components of an `OutlineVertex`: those of `pos`, then those of `color`. -/
def OutlineVertex.components (v : OutlineVertex) : List CFloat :=
  v.pos.lanes ++ v.color.lanes

/-- The 4 components of a `FullscreenVertex`: those of `pos`, then those of `uv`. -/
def FullscreenVertex.components (v : FullscreenVertex) : List CFloat :=
  v.pos.lanes ++ v.uv.lanes

/-- Equality of two `OutlineVertex` values component for component under `==`. -/
def OutlineVertex.ieeeEq (a b : OutlineVertex) : Bool :=
  ieeeEqLanes a.components b.components

/-- Equality of two `FullscreenVertex` values component for component under `==`. -/
def FullscreenVertex.ieeeEq (a b : FullscreenVertex) : Bool :=
  ieeeEqLanes a.components b.components

/-- Equality of two arrays element for element under the comparison `r`: the arrays
have the same length and every pair of elements is related. -/
def arrayEqBy {α : Type} (r : α → α → Bool) : List α → List α → Bool
  | [], [] => true
  | x :: xs, y :: ys => r x y && arrayEqBy r xs ys
  | _, _ => false

/-- Whether no component of the vertex is a NaN. -/
def OutlineVertex.nanFree (v : OutlineVertex) : Bool :=
  v.components.all (fun c => !c.isNaN)

/-- Whether no component of the vertex is a NaN. -/
def FullscreenVertex.nanFree (v : FullscreenVertex) : Bool :=
  v.components.all (fun c => !c.isNaN)

/-- Pattern of a quiet NaN. -/
def CFloat.qnan : CFloat := ⟨0x7FC00000, by decide⟩

/-- An `OutlineVertex` whose first position component is a NaN. -/
def nanOutlineVertex : OutlineVertex :=
  ⟨⟨CFloat.qnan, CFloat.f0, CFloat.f0, CFloat.f1⟩, ⟨CFloat.f1, CFloat.f0, CFloat.f0, CFloat.f1⟩⟩

/-- A `FullscreenVertex` whose first position component is a NaN. -/
def nanFullscreenVertex : FullscreenVertex :=
  ⟨⟨CFloat.qnan, CFloat.f0⟩, ⟨CFloat.f0, CFloat.f1⟩⟩

/-! ## Lemmas on scalars -/

theorem CFloat.ofLE_byte (f : CFloat) :
    CFloat.ofLE (f.byte 0) (f.byte 1) (f.byte 2) (f.byte 3) = f := by
  obtain ⟨n, hn⟩ := f
  simp only [CFloat.ofLE, CFloat.byte, CFloat.mk.injEq]
  norm_num
  omega

theorem CFloat.ofBytes_toBytes (e : ByteOrder) (f : CFloat) :
    CFloat.ofBytes e (f.toBytes e) = some f := by
  cases e <;> simp [CFloat.toBytes, CFloat.ofBytes, CFloat.ofLE_byte]

theorem CFloat.length_toBytes (e : ByteOrder) (f : CFloat) : (f.toBytes e).length = 4 := by
  cases e <;> rfl

/-- The IEEE-754 comparison of a pattern with itself holds exactly when the pattern
is not a NaN; identity of patterns is the finer relation. -/
theorem CFloat.ieeeEq_self (f : CFloat) : f.ieeeEq f = !f.isNaN := by
  cases h : f.isNaN <;> simp [CFloat.ieeeEq, h]

theorem ieeeEqLanes_self (xs : List CFloat) :
    ieeeEqLanes xs xs = xs.all (fun c => !c.isNaN) := by
  induction xs with
  | nil => rfl
  | cons x xs ih => simp only [ieeeEqLanes, List.all_cons, CFloat.ieeeEq_self, ih]

theorem arrayEqBy_self {α : Type} (r : α → α → Bool) (p : α → Bool)
    (h : ∀ x, r x x = p x) (xs : List α) : arrayEqBy r xs xs = xs.all p := by
  induction xs with
  | nil => rfl
  | cons x xs ih => simp only [arrayEqBy, List.all_cons, h, ih]

/-! ## Lemmas on vectors and records -/

theorem lanesToBytes_length (e : ByteOrder) (fs : List CFloat) :
    (lanesToBytes e fs).length = 4 * fs.length := by
  induction fs with
  | nil => rfl
  | cons f fs ih =>
    simp only [lanesToBytes, List.length_append, CFloat.length_toBytes, ih, List.length_cons]
    omega

/-- Reading back the components of a vector stored behind `pre`. -/
theorem readLanes_lanesToBytes (e : ByteOrder) (fs : List CFloat) (pre post : List Byte) :
    readLanes e (pre ++ (lanesToBytes e fs ++ post)) pre.length fs.length = some fs := by
  induction fs generalizing pre with
  | nil => rfl
  | cons f fs ih =>
    have h1 : readAt (pre ++ (lanesToBytes e (f :: fs) ++ post)) pre.length CFloat.sizeOf
        = f.toBytes e := by
      simp [readAt, lanesToBytes, CFloat.sizeOf, List.take_append_eq_append_take,
        CFloat.length_toBytes]
    have h2 := ih (pre ++ f.toBytes e)
    simp only [List.length_append, CFloat.length_toBytes, List.append_assoc] at h2
    simp only [List.length_cons, readLanes, h1, CFloat.ofBytes_toBytes]
    simp only [lanesToBytes, List.append_assoc, CFloat.sizeOf, h2]

theorem OutlineVertex_layout_eq : layoutFrom 0 OutlineVertex.fields =
    [(⟨"pos", .vector_float4⟩, 0), (⟨"color", .vector_float4⟩, 16)] := by decide

theorem FullscreenVertex_layout_eq : layoutFrom 0 FullscreenVertex.fields =
    [(⟨"pos", .vector_float2⟩, 0), (⟨"uv", .vector_float2⟩, 8)] := by decide

theorem OutlineVertex_structSize_eq : structSize OutlineVertex.fields = 32 := by decide

theorem FullscreenVertex_structSize_eq : structSize FullscreenVertex.fields = 16 := by decide

/-- The bytes of an `OutlineVertex` are those of `pos` followed by those of `color`. -/
theorem OutlineVertex_serialize_eq (e : ByteOrder) (v : OutlineVertex) :
    OutlineVertex.serialize e v = lanesToBytes e v.pos.lanes ++ lanesToBytes e v.color.lanes := by
  obtain ⟨⟨a, b, c, d⟩, ⟨r, g, bl, al⟩⟩ := v
  cases e <;> rfl

/-- The bytes of a `FullscreenVertex` are those of `pos` followed by those of `uv`. -/
theorem FullscreenVertex_serialize_eq (e : ByteOrder) (v : FullscreenVertex) :
    FullscreenVertex.serialize e v = lanesToBytes e v.pos.lanes ++ lanesToBytes e v.uv.lanes := by
  obtain ⟨⟨a, b⟩, ⟨s, t⟩⟩ := v
  cases e <;> rfl

theorem OutlineVertex_length_serialize (e : ByteOrder) (v : OutlineVertex) :
    (OutlineVertex.serialize e v).length = 32 := by
  rw [OutlineVertex_serialize_eq, List.length_append, lanesToBytes_length, lanesToBytes_length]
  rfl

theorem FullscreenVertex_length_serialize (e : ByteOrder) (v : FullscreenVertex) :
    (FullscreenVertex.serialize e v).length = 16 := by
  rw [FullscreenVertex_serialize_eq, List.length_append, lanesToBytes_length, lanesToBytes_length]
  rfl

theorem OutlineVertex_deserialize_serialize (e : ByteOrder) (v : OutlineVertex) :
    OutlineVertex.deserialize e (OutlineVertex.serialize e v) = some v := by
  have hpos : readLanes e (lanesToBytes e v.pos.lanes ++ lanesToBytes e v.color.lanes) 0 4
      = some v.pos.lanes := readLanes_lanesToBytes e v.pos.lanes [] _
  have hcol : readLanes e (lanesToBytes e v.pos.lanes ++ lanesToBytes e v.color.lanes) 16 4
      = some v.color.lanes := by
    have h := readLanes_lanesToBytes e v.color.lanes (lanesToBytes e v.pos.lanes) []
    rw [List.append_nil, lanesToBytes_length] at h
    exact h
  have hlen := OutlineVertex_length_serialize e v
  rw [OutlineVertex_serialize_eq] at hlen
  unfold OutlineVertex.deserialize deserializeRecord
  rw [OutlineVertex_layout_eq, OutlineVertex_structSize_eq, OutlineVertex_serialize_eq,
    if_pos hlen]
  simp only [readFields, FieldType.lanes, hpos, hcol]
  rfl

theorem FullscreenVertex_deserialize_serialize (e : ByteOrder) (v : FullscreenVertex) :
    FullscreenVertex.deserialize e (FullscreenVertex.serialize e v) = some v := by
  have hpos : readLanes e (lanesToBytes e v.pos.lanes ++ lanesToBytes e v.uv.lanes) 0 2
      = some v.pos.lanes := readLanes_lanesToBytes e v.pos.lanes [] _
  have huv : readLanes e (lanesToBytes e v.pos.lanes ++ lanesToBytes e v.uv.lanes) 8 2
      = some v.uv.lanes := by
    have h := readLanes_lanesToBytes e v.uv.lanes (lanesToBytes e v.pos.lanes) []
    rw [List.append_nil, lanesToBytes_length] at h
    exact h
  have hlen := FullscreenVertex_length_serialize e v
  rw [FullscreenVertex_serialize_eq] at hlen
  unfold FullscreenVertex.deserialize deserializeRecord
  rw [FullscreenVertex_layout_eq, FullscreenVertex_structSize_eq, FullscreenVertex_serialize_eq,
    if_pos hlen]
  simp only [readFields, FieldType.lanes, hpos, huv]
  rfl

/-! ## Lemmas on arrays -/

section arrays

variable {α : Type} (size : Nat) (ser : α → List Byte) (de : List Byte → Option α)

theorem serializeArray_length (hlen : ∀ v, (ser v).length = size) (vs : List α) :
    (serializeArray ser vs).length = size * vs.length := by
  induction vs with
  | nil => rfl
  | cons v vs ih =>
    simp only [serializeArray, List.length_append, hlen, ih, List.length_cons]
    rw [Nat.mul_succ, Nat.add_comm]

theorem deserializeChunks_serializeArray (hlen : ∀ v, (ser v).length = size)
    (hrt : ∀ v, de (ser v) = some v) (vs : List α) :
    deserializeChunks size de vs.length (serializeArray ser vs) = some vs := by
  induction vs with
  | nil => rfl
  | cons v vs ih =>
    have ht : (ser v ++ serializeArray ser vs).take size = ser v := by
      rw [← hlen v]; exact List.take_left _ _
    have hd : (ser v ++ serializeArray ser vs).drop size = serializeArray ser vs := by
      rw [← hlen v]; exact List.drop_left _ _
    simp only [List.length_cons, deserializeChunks, serializeArray, ht, hd, hrt, ih]

theorem deserializeArray_serializeArray (hsize : 0 < size)
    (hlen : ∀ v, (ser v).length = size) (hrt : ∀ v, de (ser v) = some v) (vs : List α) :
    deserializeArray size de (serializeArray ser vs) = some vs := by
  have hl := serializeArray_length size ser hlen vs
  have hq : (serializeArray ser vs).length / size = vs.length := by
    rw [hl]; exact Nat.mul_div_cancel_left _ hsize
  unfold deserializeArray
  rw [hq, if_pos hl.symm]
  exact deserializeChunks_serializeArray size ser de hlen hrt vs

theorem serializeArray_chunk (hlen : ∀ v, (ser v).length = size) (vs : List α)
    (i : Fin vs.length) :
    ((serializeArray ser vs).drop (size * i.val)).take size = ser (vs.get i) := by
  induction vs with
  | nil => exact i.elim0
  | cons v vs ih =>
    obtain ⟨i, hi⟩ := i
    cases i with
    | zero =>
      simp only [Nat.mul_zero, List.drop_zero, serializeArray, List.get]
      rw [← hlen v]; exact List.take_left _ _
    | succ j =>
      have hj : j < vs.length := Nat.lt_of_succ_lt_succ hi
      have hd : (serializeArray ser (v :: vs)).drop (size * (j + 1))
          = (serializeArray ser vs).drop (size * j) := by
        have hsplit : size * (j + 1) = (ser v).length + size * j := by
          rw [hlen v, Nat.mul_succ, Nat.add_comm]
        simp only [serializeArray]
        rw [hsplit, ← List.drop_drop, List.drop_left]
      show ((serializeArray ser (v :: vs)).drop (size * (j + 1))).take size = ser (vs.get ⟨j, hj⟩)
      rw [hd]
      exact ih ⟨j, hj⟩

end arrays

/-! ## The layout contract -/

/-- C1: the binding-index constant `VertexInputIndexVertices` has the integer value 0,
it is the only member of the enumeration `VertexInputIndex`, and every value of the
enumeration converts to the 32-bit integer 0. -/
theorem VertexInputIndex_value :
    VertexInputIndex.VertexInputIndexVertices.toInt = 0 ∧
    VertexInputIndex.enumerators = [VertexInputIndex.VertexInputIndexVertices] ∧
    (∀ v : VertexInputIndex, v = VertexInputIndex.VertexInputIndexVertices) ∧
    (∀ v : VertexInputIndex, v.toInt32 = 0) := by
  refine ⟨rfl, rfl, ?_, ?_⟩
  · intro v; cases v; rfl
  · intro v; cases v; decide

/-- C2: `OutlineVertex` has exactly two fields, `pos` then `color`, each made of 4
32-bit floats stored without gaps (16 bytes per field), and the size of the record
is 32 bytes. -/
theorem OutlineVertex_shape :
    OutlineVertex.fields.length = 2 ∧
    OutlineVertex.fields.map (fun f => f.name) = ["pos", "color"] ∧
    OutlineVertex.fields.map (fun f => f.type) =
      [FieldType.vector_float4, FieldType.vector_float4] ∧
    FieldType.vector_float4.lanes = 4 ∧
    8 * CFloat.sizeOf = 32 ∧
    FieldType.vector_float4.sizeOf = 4 * CFloat.sizeOf ∧
    (∀ v : OutlineVertex, v.toRecord.map List.length = [4, 4]) ∧
    structSize OutlineVertex.fields = 32 := by
  refine ⟨rfl, rfl, rfl, rfl, rfl, rfl, fun _ => rfl, ?_⟩
  decide

/-- C3: `FullscreenVertex` has exactly two fields, `pos` then `uv`, each made of 2
32-bit floats stored without gaps (8 bytes per field), and the size of the record is
16 bytes. -/
theorem FullscreenVertex_shape :
    FullscreenVertex.fields.length = 2 ∧
    FullscreenVertex.fields.map (fun f => f.name) = ["pos", "uv"] ∧
    FullscreenVertex.fields.map (fun f => f.type) =
      [FieldType.vector_float2, FieldType.vector_float2] ∧
    FieldType.vector_float2.lanes = 2 ∧
    8 * CFloat.sizeOf = 32 ∧
    FieldType.vector_float2.sizeOf = 2 * CFloat.sizeOf ∧
    (∀ v : FullscreenVertex, v.toRecord.map List.length = [2, 2]) ∧
    structSize FullscreenVertex.fields = 16 := by
  refine ⟨rfl, rfl, rfl, rfl, rfl, rfl, fun _ => rfl, ?_⟩
  decide

/-- C4: neither record has padding or reordered fields: in `OutlineVertex`, `pos` is
at byte offset 0 and `color` at 16; in `FullscreenVertex`, `pos` is at 0 and `uv` at
8; the fields are laid out in declaration order; in both records the field sizes add
up to the size of the record, and every byte of the record belongs to exactly one
component of one field. -/
theorem no_padding_no_reordering :
    offsetOf OutlineVertex.fields "pos" = some 0 ∧
    offsetOf OutlineVertex.fields "color" = some 16 ∧
    offsetOf FullscreenVertex.fields "pos" = some 0 ∧
    offsetOf FullscreenVertex.fields "uv" = some 8 ∧
    (layoutFrom 0 OutlineVertex.fields).map (fun p => (p.1.name, p.2)) =
      [("pos", 0), ("color", 16)] ∧
    (layoutFrom 0 FullscreenVertex.fields).map (fun p => (p.1.name, p.2)) =
      [("pos", 0), ("uv", 8)] ∧
    fieldBytes OutlineVertex.fields = structSize OutlineVertex.fields ∧
    fieldBytes FullscreenVertex.fields = structSize FullscreenVertex.fields ∧
    (∀ b : Fin (structSize OutlineVertex.fields),
      (byteOwners OutlineVertex.fields b.val).length = 1) ∧
    (∀ b : Fin (structSize FullscreenVertex.fields),
      (byteOwners FullscreenVertex.fields b.val).length = 1) := by
  have h32 : ∀ b, b < 32 → (byteOwners OutlineVertex.fields b).length = 1 := by decide
  have h16 : ∀ b, b < 16 → (byteOwners FullscreenVertex.fields b).length = 1 := by decide
  refine ⟨by decide, by decide, by decide, by decide, by decide, by decide, by decide,
    by decide, ?_, ?_⟩
  · intro b
    exact h32 b.val (Nat.lt_of_lt_of_eq b.isLt OutlineVertex_structSize_eq)
  · intro b
    exact h16 b.val (Nat.lt_of_lt_of_eq b.isLt FullscreenVertex_structSize_eq)

/-- C8: both records are naturally aligned: the vector types are aligned to 16 and 8
bytes, every field lies at an offset that is a multiple of the alignment of its type,
the alignment of `OutlineVertex` is 16 and that of `FullscreenVertex` is 8, and the
sizes 32 and 16 are multiples of these alignments. -/
theorem natural_alignment :
    FieldType.vector_float4.alignOf = 16 ∧
    FieldType.vector_float2.alignOf = 8 ∧
    (layoutFrom 0 OutlineVertex.fields).map (fun p => p.2 % p.1.type.alignOf) = [0, 0] ∧
    (layoutFrom 0 FullscreenVertex.fields).map (fun p => p.2 % p.1.type.alignOf) = [0, 0] ∧
    structAlign OutlineVertex.fields = 16 ∧
    structAlign FullscreenVertex.fields = 8 ∧
    structSize OutlineVertex.fields = 32 ∧
    structSize FullscreenVertex.fields = 16 ∧
    structSize OutlineVertex.fields % structAlign OutlineVertex.fields = 0 ∧
    structSize FullscreenVertex.fields % structAlign FullscreenVertex.fields = 0 := by
  decide

/-! ## Serialization -/

/-- C5, as stated, fails: the array holding the single `OutlineVertex` whose first
position component is the NaN 0x7FC00000 is serialized and deserialized to an array
that is not equal to the original component for component under `==`. -/
theorem OutlineVertex_roundtrip_nan_not_ieeeEq :
    ¬ ∃ ws : List OutlineVertex,
      OutlineVertex.deserializeArray ByteOrder.little
        (OutlineVertex.serializeArray ByteOrder.little [nanOutlineVertex]) = some ws ∧
      arrayEqBy OutlineVertex.ieeeEq ws [nanOutlineVertex] = true := by
  rintro ⟨ws, hws, heq⟩
  have hrt : OutlineVertex.deserializeArray ByteOrder.little
      (OutlineVertex.serializeArray ByteOrder.little [nanOutlineVertex])
      = some [nanOutlineVertex] := by decide
  rw [hrt] at hws
  cases hws
  revert heq
  decide

/-- C5, amended: round trip for `OutlineVertex`: for every array of `OutlineVertex`
values, of any length, deserializing the bytes of its serialization succeeds and
gives back the same array, all 8 components of every vertex identical bit for bit;
the recovered array equals the original component for component under `==` exactly
when no component of any vertex is a NaN. -/
theorem OutlineVertex_roundtrip (e : ByteOrder) (vs : List OutlineVertex) :
    OutlineVertex.deserializeArray e (OutlineVertex.serializeArray e vs) = some vs ∧
    arrayEqBy OutlineVertex.ieeeEq vs vs = vs.all OutlineVertex.nanFree := by
  refine ⟨?_, arrayEqBy_self _ _ (fun v => ieeeEqLanes_self v.components) vs⟩
  unfold OutlineVertex.deserializeArray OutlineVertex.serializeArray
  rw [OutlineVertex_structSize_eq]
  exact deserializeArray_serializeArray 32 _ _ (by decide)
    (OutlineVertex_length_serialize e) (OutlineVertex_deserialize_serialize e) vs

/-- C6, as stated, fails: the array holding the single `FullscreenVertex` whose first
position component is the NaN 0x7FC00000 is serialized and deserialized to an array
that is not equal to the original component for component under `==`. -/
theorem FullscreenVertex_roundtrip_nan_not_ieeeEq :
    ¬ ∃ ws : List FullscreenVertex,
      FullscreenVertex.deserializeArray ByteOrder.little
        (FullscreenVertex.serializeArray ByteOrder.little [nanFullscreenVertex]) = some ws ∧
      arrayEqBy FullscreenVertex.ieeeEq ws [nanFullscreenVertex] = true := by
  rintro ⟨ws, hws, heq⟩
  have hrt : FullscreenVertex.deserializeArray ByteOrder.little
      (FullscreenVertex.serializeArray ByteOrder.little [nanFullscreenVertex])
      = some [nanFullscreenVertex] := by decide
  rw [hrt] at hws
  cases hws
  revert heq
  decide

/-- C6, amended: round trip for `FullscreenVertex`: for every array of
`FullscreenVertex` values, of any length, deserializing the bytes of its
serialization succeeds and gives back the same array, all 4 components of every
vertex identical bit for bit; the recovered array equals the original component for
component under `==` exactly when no component of any vertex is a NaN. -/
theorem FullscreenVertex_roundtrip (e : ByteOrder) (vs : List FullscreenVertex) :
    FullscreenVertex.deserializeArray e (FullscreenVertex.serializeArray e vs) = some vs ∧
    arrayEqBy FullscreenVertex.ieeeEq vs vs = vs.all FullscreenVertex.nanFree := by
  refine ⟨?_, arrayEqBy_self _ _ (fun v => ieeeEqLanes_self v.components) vs⟩
  unfold FullscreenVertex.deserializeArray FullscreenVertex.serializeArray
  rw [FullscreenVertex_structSize_eq]
  exact deserializeArray_serializeArray 16 _ _ (by decide)
    (FullscreenVertex_length_serialize e) (FullscreenVertex_deserialize_serialize e) vs

/-- C7: the `OutlineVertex` with pos = (100, 0, 0, 1) and color = (1, 0, 0, 1)
serializes to 32 bytes holding the 8 floats 100, 0, 0, 1, 1, 0, 0, 1 in this order,
the four components of `pos` first, with the bit patterns 0x42C80000, 0, 0,
0x3F800000, 0x3F800000, 0, 0, 0x3F800000, each word in the byte order of the host;
on a little-endian host the bytes are the ones listed. -/
theorem exampleOutlineVertex_bytes :
    exampleOutlineVertex.pos.lanes.map CFloat.toRat? = [some 100, some 0, some 0, some 1] ∧
    exampleOutlineVertex.color.lanes.map CFloat.toRat? = [some 1, some 0, some 0, some 1] ∧
    (exampleOutlineVertex.pos.lanes ++ exampleOutlineVertex.color.lanes).map CFloat.bits =
      [0x42C80000, 0, 0, 0x3F800000, 0x3F800000, 0, 0, 0x3F800000] ∧
    (∀ e : ByteOrder, OutlineVertex.serialize e exampleOutlineVertex =
      lanesToBytes e (exampleOutlineVertex.pos.lanes ++ exampleOutlineVertex.color.lanes)) ∧
    (∀ e : ByteOrder, (OutlineVertex.serialize e exampleOutlineVertex).length = 32) ∧
    (∀ e : ByteOrder, readLanes e (OutlineVertex.serialize e exampleOutlineVertex) 0 8 =
      some [CFloat.f100, CFloat.f0, CFloat.f0, CFloat.f1,
        CFloat.f1, CFloat.f0, CFloat.f0, CFloat.f1]) ∧
    OutlineVertex.serialize ByteOrder.little exampleOutlineVertex =
      [0x00, 0x00, 0xC8, 0x42, 0, 0, 0, 0, 0, 0, 0, 0, 0x00, 0x00, 0x80, 0x3F,
       0x00, 0x00, 0x80, 0x3F, 0, 0, 0, 0, 0, 0, 0, 0, 0x00, 0x00, 0x80, 0x3F] := by
  have h100 : CFloat.f100.toRat? = some 100 := by
    norm_num [CFloat.toRat?, CFloat.f100, CFloat.exponent, CFloat.sign, CFloat.fraction]
  have h1 : CFloat.f1.toRat? = some 1 := by
    norm_num [CFloat.toRat?, CFloat.f1, CFloat.exponent, CFloat.sign, CFloat.fraction]
  have h0 : CFloat.f0.toRat? = some 0 := by
    norm_num [CFloat.toRat?, CFloat.f0, CFloat.exponent, CFloat.sign, CFloat.fraction]
  refine ⟨?_, ?_, by decide, ?_, ?_, ?_, by decide⟩
  · simp only [exampleOutlineVertex, vector_float4.lanes, List.map, h100, h1, h0]
  · simp only [exampleOutlineVertex, vector_float4.lanes, List.map, h1, h0]
  · intro e; cases e <;> decide
  · intro e; cases e <;> decide
  · intro e; cases e <;> decide

/-- C9: the array stride is the record size: the serialization of `N`
`OutlineVertex` values has exactly `32 * N` bytes and that of `N` `FullscreenVertex`
values exactly `16 * N` bytes, 32 and 16 being the sizes of the records, and for
every `i < N` the bytes at `[size * i, size * (i + 1))` are the serialization of
element `i` on its own. -/
theorem array_stride (e : ByteOrder) :
    structSize OutlineVertex.fields = 32 ∧
    structSize FullscreenVertex.fields = 16 ∧
    (∀ vs : List OutlineVertex,
      (OutlineVertex.serializeArray e vs).length = 32 * vs.length ∧
      ∀ i : Fin vs.length,
        readAt (OutlineVertex.serializeArray e vs) (32 * i.val) 32 =
          OutlineVertex.serialize e (vs.get i)) ∧
    (∀ vs : List FullscreenVertex,
      (FullscreenVertex.serializeArray e vs).length = 16 * vs.length ∧
      ∀ i : Fin vs.length,
        readAt (FullscreenVertex.serializeArray e vs) (16 * i.val) 16 =
          FullscreenVertex.serialize e (vs.get i)) := by
  refine ⟨by decide, by decide, fun vs => ⟨?_, fun i => ?_⟩, fun vs => ⟨?_, fun i => ?_⟩⟩
  · exact serializeArray_length 32 _ (OutlineVertex_length_serialize e) vs
  · exact serializeArray_chunk 32 _ (OutlineVertex_length_serialize e) vs i
  · exact serializeArray_length 16 _ (FullscreenVertex_length_serialize e) vs
  · exact serializeArray_chunk 16 _ (FullscreenVertex_length_serialize e) vs i

end ShaderTypes
